import Mathlib

/-!
Verification development for the solana-exporter epoch/slot tracking core
(`cmd/solana-exporter/slots.go`, `cmd/solana-exporter/utils.go`,
`pkg/rpc/responses.go`, `pkg/rpc/client.go`).

The Go code is shallowly embedded as follows:
* `int64` slot/epoch numbers become `Int` (slot arithmetic is far from the
  64-bit boundary, so wrap-around is irrelevant and not modelled);
* `float64` metric values become `ℚ` (only exact decimal arithmetic — the
  lamport-to-SOL division — occurs in the metric paths relevant here);
* Go maps used as sets (`map[int64]struct{}`, `map[string]struct{}`) become
  duplicate-free lists with membership-guarded insertion (`slotInsert`,
  `setInsert`), so `len(map)` becomes list length;
* labeled Prometheus counter/gauge vectors become association lists from the
  label tuple to the value (`WithLabelValues(..).Add` / `.Set` /
  `DeleteLabelValues` become `counterAdd` / `gaugeSet` / `counterDelete`);
* each RPC call site takes its response from an environment `RpcEnv` mapping
  the request parameters to `Option`/result values, `none` meaning the call
  returned an error;
* `logger.Fatalf` (including `assertf` failures) and Go panics terminate the
  process: fallible state transitions return `Outcome`, with `Outcome.fatal`
  for process termination; transient errors that the Go code merely logs
  leave the state unchanged inside an `Outcome.ok`;
* the `go c.cleanEpoch(..)` goroutine is modelled as a separate operation
  (`cleanEpoch`) on the state, with its `select` on context-done vs delay
  expiry modelled by an explicit `shutdownDuringDelay : Bool` input;
* the block-size gauge path of `fetchAndEmitSingleBlockInfo` is modelled
  including the vote-transaction count (`CountVoteTransactions`), with a
  transaction represented by its account-key list, which is the only part
  of a transaction the Go function inspects.
-/

/-- `rpc.HostProduction` (pkg/rpc/responses.go). -/
structure HostProduction where
  blocksProduced : Int
  leaderSlots : Int
  deriving DecidableEq, Repr

/-- `rpc.EpochInfo` fields used by the slot watcher. -/
structure EpochInfo where
  epoch : Int
  absoluteSlot : Int
  slotIndex : Int
  slotsInEpoch : Int
  transactionCount : Int
  blockHeight : Int
  deriving DecidableEq, Repr

/-- `rpc.InflationReward` (amount in lamports, epoch). -/
structure InflationReward where
  amount : Int
  epoch : Int
  deriving DecidableEq, Repr

/-- `rpc.BlockReward` (pkg/rpc/responses.go). -/
structure BlockReward where
  pubkey : String
  lamports : Int
  rewardType : String
  deriving DecidableEq, Repr

/-- The parts of an `rpc.Block` inspected by `fetchAndEmitSingleBlockInfo`:
its rewards, and for each transaction the account keys of its message
(all that `CountVoteTransactions` reads). -/
structure BlockResult where
  rewards : List BlockReward
  transactions : List (List String)
  deriving DecidableEq, Repr

/-- Result of a `GetBlock` RPC call: a transport/other error, the
distinguished slot-skipped error, or a block. -/
inductive BlockFetchResult where
  | rpcErr : BlockFetchResult
  | slotSkipped : BlockFetchResult
  | okBlock : BlockResult → BlockFetchResult
  deriving DecidableEq, Repr

/-- The `ExporterConfig` fields consumed by the slot watcher. -/
structure ExporterConfig where
  lightMode : Bool
  nodeKeys : List String
  voteKeys : List String
  validatorIdentity : String
  comprehensiveSlotTracking : Bool
  monitorBlockSizes : Bool
  deriving DecidableEq, Repr

/-- Environment of RPC responses, keyed by the request parameters; `none`
models a call that returned an error. -/
structure RpcEnv where
  getLeaderSchedule : Int → Option (List (String × List Int))
  getBlockProduction : Int → Int → Option (List (String × HostProduction))
  getInflationReward : Int → Option (List InflationReward)
  getBlock : Int → BlockFetchResult

/-- Result of a state transition: normal continuation, or process
termination via `logger.Fatalf` / panic. -/
inductive Outcome (σ : Type) where
  | ok : σ → Outcome σ
  | fatal : Outcome σ
  deriving DecidableEq, Repr

/-- Project the state out of a non-fatal outcome. -/
def Outcome.state {σ : Type} : Outcome σ → Option σ
  | .ok s => some s
  | .fatal => none

/-- `LamportsInSol` (pkg/rpc). -/
def LamportsInSol : ℚ := 1000000000

/-- `VoteProgram` (cmd/solana-exporter/utils.go). -/
def VoteProgram : String := "Vote111111111111111111111111111111111111111"

/-- A labeled Prometheus counter/gauge vector: association list from label
tuple to current value. -/
def MetricVec (α : Type) : Type := List (α × ℚ)

instance (α : Type) [DecidableEq α] : DecidableEq (MetricVec α) :=
  inferInstanceAs (DecidableEq (List (α × ℚ)))

/-- `WithLabelValues(k...).Add(v)`: add `v` to the series `k`, creating it at
`v` if absent. -/
def counterAdd {α : Type} [DecidableEq α] : MetricVec α → α → ℚ → MetricVec α
  | [], k, v => [(k, v)]
  | (k', v') :: rest, k, v =>
    if k' = k then (k, v' + v) :: rest else (k', v') :: counterAdd rest k v

/-- `WithLabelValues(k...).Set(v)`: set the series `k` to `v`. -/
def gaugeSet {α : Type} [DecidableEq α] : MetricVec α → α → ℚ → MetricVec α
  | [], k, v => [(k, v)]
  | (k', v') :: rest, k, v =>
    if k' = k then (k, v) :: rest else (k', v') :: gaugeSet rest k v

/-- `DeleteLabelValues(k...)`: remove the series `k`. -/
def counterDelete {α : Type} [DecidableEq α] : MetricVec α → α → MetricVec α
  | [], _ => []
  | (k', v') :: rest, k =>
    if k' = k then rest else (k', v') :: counterDelete rest k

/-- Current value of series `k`, `none` if the series does not exist. -/
def counterLookup {α : Type} [DecidableEq α] : MetricVec α → α → Option ℚ
  | [], _ => none
  | (k', v') :: rest, k => if k' = k then some v' else counterLookup rest k

/-- First-match lookup in a `map[string][]int64` modelled as an association
list (Go map access `m[k]`, with `ok`). -/
def schedLookup : List (String × List Int) → String → Option (List Int)
  | [], _ => none
  | (k', v') :: rest, k => if k' = k then some v' else schedLookup rest k

/-- Go map access `blockProduction.ByIdentity[key]` with its `ok` flag. -/
def prodLookup : List (String × HostProduction) → String → Option HostProduction
  | [], _ => none
  | (k', v') :: rest, k => if k' = k then some v' else prodLookup rest k

/-- The `EpochTrackedValidators.trackedNodekeys` map
(`map[int64]map[string]struct{}`): association list from epoch to the list of
nodekeys, list membership modelling set membership. -/
def TrackerMap : Type := List (Int × List String)

instance : DecidableEq TrackerMap := inferInstanceAs (DecidableEq (List (Int × List String)))

/-- Lookup of an epoch's nodekey set, with the map's `ok` flag. -/
def trackerLookup : TrackerMap → Int → Option (List String)
  | [], _ => none
  | (e, ks) :: rest, epoch => if e = epoch then some ks else trackerLookup rest epoch

/-- Replace (or create) an epoch's entry. -/
def trackerStore : TrackerMap → Int → List String → TrackerMap
  | [], epoch, ks => [(epoch, ks)]
  | (e, ks') :: rest, epoch, ks =>
    if e = epoch then (epoch, ks) :: rest else (e, ks') :: trackerStore rest epoch ks

/-- Remove an epoch's entry (`delete(c.trackedNodekeys, epoch)`). -/
def trackerDelete : TrackerMap → Int → TrackerMap
  | [], _ => []
  | (e, ks) :: rest, epoch => if e = epoch then rest else (e, ks) :: trackerDelete rest epoch

/-- Set-insert into a nodekey set modelled as a duplicate-free list. -/
def setInsert (l : List String) (s : String) : List String :=
  if s ∈ l then l else l ++ [s]

/-- Set-insert into a slot set (`map[int64]struct{}`) modelled as a
duplicate-free list: `m[slot] = struct{}{}`. -/
def slotInsert (l : List Int) (s : Int) : List Int :=
  if s ∈ l then l else l ++ [s]

/-- `EpochTrackedValidators.AddTrackedNodekeys` (utils.go): merge the given
nodekeys into the epoch's set, creating it if absent. -/
def AddTrackedNodekeys (tracker : TrackerMap) (epoch : Int) (nodekeys : List String) :
    TrackerMap :=
  let epochNodekeys := (trackerLookup tracker epoch).getD []
  trackerStore tracker epoch (nodekeys.foldl setInsert epochNodekeys)

/-- `EpochTrackedValidators.GetTrackedValidators` (utils.go): read the
epoch's nodekey set and delete it from the map; error if the epoch is not
tracked. -/
def GetTrackedValidators (tracker : TrackerMap) (epoch : Int) :
    Option (List String × TrackerMap) :=
  match trackerLookup tracker epoch with
  | none => none
  | some ks => some (ks, trackerDelete tracker epoch)

/-- The mutable `SlotWatcher` state (slots.go): the epoch window, the
watermark, the trimmed leader schedule, the per-epoch outcome sets, the
(declared) inflation-reward emission record, the leader-schedule cache, the
nodekey tracker and the metric instruments touched by the watcher. -/
structure WatcherState where
  currentEpoch : Int
  firstSlot : Int
  lastSlot : Int
  slotWatermark : Int
  leaderSchedule : List (String × List Int)
  processedLeaderSlots : List Int
  skippedLeaderSlots : List Int
  emittedInflationRewards : List (String × Int)
  cachedLeaderSchedule : Option (List (String × List Int))
  cachedLeaderScheduleEpoch : Int
  trackedNodekeys : TrackerMap
  slotHeightMetric : Int
  epochNumberMetric : Int
  totalTransactionsMetric : Int
  blockHeightMetric : Int
  epochFirstSlotMetric : Int
  epochLastSlotMetric : Int
  assignedLeaderSlotsGauge : Int
  leaderSlotsProcessedEpochGauge : Int
  leaderSlotsSkippedEpochGauge : Int
  clusterSlotsByEpochMetric : MetricVec (Int × String)
  inflationRewardsMetric : MetricVec (String × Int)
  feeRewardsMetric : MetricVec (String × Int)
  blockSizeMetric : MetricVec (String × String)
  deriving DecidableEq

/-- `GetEpochBounds` (utils.go): first and last slot (inclusive) of the epoch
described by `info`. -/
def GetEpochBounds (info : EpochInfo) : Int × Int :=
  let firstSlot := info.absoluteSlot - info.slotIndex
  (firstSlot, firstSlot + info.slotsInEpoch - 1)

/-- `SelectFromSchedule` (utils.go): restrict every identity's slot list to
the inclusive range `[startSlot, endSlot]`. -/
def SelectFromSchedule (schedule : List (String × List Int)) (startSlot endSlot : Int) :
    List (String × List Int) :=
  schedule.map (fun kv => (kv.1, kv.2.filter (fun v => startSlot ≤ v ∧ v ≤ endSlot)))

/-- `GetTrimmedLeaderSchedule` (utils.go, lines 89-113), abstracted over the
already-fetched raw schedule: keep only the requested identities and convert
each per-epoch slot index to an absolute slot by adding `epochFirstSlot`. -/
def GetTrimmedLeaderSchedule (rawSchedule : List (String × List Int))
    (identities : List String) (epochFirstSlot : Int) : List (String × List Int) :=
  identities.filterMap (fun id =>
    (schedLookup rawSchedule id).map (fun leaderSlots =>
      (id, leaderSlots.map (fun slotIndex => slotIndex + epochFirstSlot))))

/-- `GetTrimmedLeaderScheduleFromCache` (slots.go, lines 616-627): keep only
the requested node keys; the slot values are passed through unchanged. -/
def GetTrimmedLeaderScheduleFromCache (schedule : List (String × List Int))
    (nodeKeys : List String) : List (String × List Int) :=
  nodeKeys.filterMap (fun key =>
    (schedLookup schedule key).map (fun slots => (key, slots)))

/-- `HostProduction.UnmarshalJSON` (pkg/rpc/responses.go, lines 106-117) on an
already-parsed integer array: exactly two entries, the first is
`BlocksProduced`, the second `LeaderSlots`. -/
def hostProductionUnmarshal : List Int → Option HostProduction
  | [a, b] => some { blocksProduced := a, leaderSlots := b }
  | _ => none

/-- `CountVoteTransactions` (utils.go): number of transactions whose account
keys contain the vote program address. -/
def CountVoteTransactions (block : BlockResult) : Nat :=
  (block.transactions.filter (fun tx => VoteProgram ∈ tx)).length

/-- `SlotWatcher.FetchLeaderSchedule` (slots.go, lines 599-613): return the
cached schedule if it is for `currentEpoch`; otherwise call
`GetLeaderSchedule` with `epochFirstSlot` and cache the raw result. `none`
models the fetch error path. -/
def FetchLeaderSchedule (env : RpcEnv) (st : WatcherState)
    (currentEpoch epochFirstSlot : Int) :
    Option (List (String × List Int) × WatcherState) :=
  match st.cachedLeaderSchedule with
  | some cached =>
    if st.cachedLeaderScheduleEpoch = currentEpoch then some (cached, st)
    else
      match env.getLeaderSchedule epochFirstSlot with
      | none => none
      | some leaderSchedule =>
        some (leaderSchedule,
          { st with cachedLeaderSchedule := some leaderSchedule,
                    cachedLeaderScheduleEpoch := currentEpoch })
  | none =>
    match env.getLeaderSchedule epochFirstSlot with
    | none => none
    | some leaderSchedule =>
      some (leaderSchedule,
        { st with cachedLeaderSchedule := some leaderSchedule,
                  cachedLeaderScheduleEpoch := currentEpoch })

/-- The slot-classification loop of `processLeaderSlotsForValidator`
(slots.go, lines 403-416): for each leader slot not exceeding `endSlot`,
when production info for the validator is present, insert the slot into
`processed` if `BlocksProduced > 0`, else into `skipped`. -/
def classifyLeaderSlots (processed skipped : List Int) (slots : List Int)
    (endSlot : Int) (prodOpt : Option HostProduction) : List Int × List Int :=
  match slots with
  | [] => (processed, skipped)
  | slot :: rest =>
    if endSlot < slot then classifyLeaderSlots processed skipped rest endSlot prodOpt
    else
      match prodOpt with
      | none => classifyLeaderSlots processed skipped rest endSlot prodOpt
      | some prod =>
        if 0 < prod.blocksProduced then
          classifyLeaderSlots (slotInsert processed slot) skipped rest endSlot prodOpt
        else
          classifyLeaderSlots processed (slotInsert skipped slot) rest endSlot prodOpt

/-- `SlotWatcher.processLeaderSlotsForValidator` (slots.go, lines 367-420).
`Outcome.fatal` models the `logger.Fatalf` on an invalid slot range; a failed
leader-schedule fetch is logged and returns with the state unchanged. -/
def processLeaderSlotsForValidator (cfg : ExporterConfig) (env : RpcEnv)
    (st : WatcherState) (startSlot endSlot currentSlot : Int)
    (blockProduction : List (String × HostProduction)) : Outcome WatcherState :=
  if cfg.lightMode then .ok st
  else
    if startSlot < st.firstSlot ∨
        st.lastSlot < (if currentSlot < endSlot then currentSlot else endSlot) then .fatal
    else if cfg.validatorIdentity = "" then .ok st
    else
      match FetchLeaderSchedule env st st.currentEpoch st.firstSlot with
      | none => .ok st
      | some (leaderSchedule, st₁) =>
        let leaderSlots := (schedLookup leaderSchedule cfg.validatorIdentity).getD []
        let st₂ := { st₁ with assignedLeaderSlotsGauge := (leaderSlots.length : Int) }
        let prodOpt := prodLookup blockProduction cfg.validatorIdentity
        let pair := classifyLeaderSlots st₂.processedLeaderSlots st₂.skippedLeaderSlots
          leaderSlots (if currentSlot < endSlot then currentSlot else endSlot) prodOpt
        .ok { st₂ with
          processedLeaderSlots := pair.1,
          skippedLeaderSlots := pair.2,
          leaderSlotsProcessedEpochGauge := (pair.1.length : Int),
          leaderSlotsSkippedEpochGauge := (pair.2.length : Int) }

/-- The fee-reward loop of `fetchAndEmitSingleBlockInfo` (slots.go, lines
518-532): for each reward of type "fee", assert the pubkey matches the
nodekey (`none` models the fatal `assertf` failure) and add the
lamports-to-SOL converted amount to the fee-reward counter. -/
def emitFeeRewards (nodekey : String) (epoch : Int) :
    List BlockReward → MetricVec (String × Int) → Option (MetricVec (String × Int))
  | [], fees => some fees
  | reward :: rest, fees =>
    if reward.rewardType.toLower = "fee" then
      if reward.pubkey = nodekey then
        emitFeeRewards nodekey epoch rest
          (counterAdd fees (nodekey, epoch) ((reward.lamports : ℚ) / LamportsInSol))
      else none
    else emitFeeRewards nodekey epoch rest fees

/-- `SlotWatcher.fetchAndEmitSingleBlockInfo` (slots.go, lines 498-550).
The returned fetch error (and the slot-skipped case) leave the state
unchanged; the pubkey `assertf` is fatal. -/
def fetchAndEmitSingleBlockInfo (cfg : ExporterConfig) (env : RpcEnv)
    (st : WatcherState) (nodekey : String) (epoch slot : Int) : Outcome WatcherState :=
  match env.getBlock slot with
  | .rpcErr => .ok st
  | .slotSkipped => .ok st
  | .okBlock block =>
    match emitFeeRewards nodekey epoch block.rewards st.feeRewardsMetric with
    | none => .fatal
    | some fees =>
      let st₁ := { st with feeRewardsMetric := fees }
      if cfg.monitorBlockSizes then
        let voteCount := CountVoteTransactions block
        let nonVoteCount := block.transactions.length - voteCount
        let sizes := gaugeSet st₁.blockSizeMetric (nodekey, "vote") (voteCount : ℚ)
        .ok { st₁ with blockSizeMetric := gaugeSet sizes (nodekey, "non_vote") (nonVoteCount : ℚ) }
      else .ok st₁

/-- Inner loop of `fetchAndEmitBlockInfos` over one nodekey's leader slots;
per-slot errors are logged and the loop continues. -/
def emitBlockInfosSlots (cfg : ExporterConfig) (env : RpcEnv) (nodekey : String)
    (epoch : Int) : List Int → WatcherState → Outcome WatcherState
  | [], st => .ok st
  | slot :: rest, st =>
    match fetchAndEmitSingleBlockInfo cfg env st nodekey epoch slot with
    | .fatal => .fatal
    | .ok st' => emitBlockInfosSlots cfg env nodekey epoch rest st'

/-- Outer loop of `fetchAndEmitBlockInfos` over the selected schedule. -/
def emitBlockInfosSchedule (cfg : ExporterConfig) (env : RpcEnv) (epoch : Int) :
    List (String × List Int) → WatcherState → Outcome WatcherState
  | [], st => .ok st
  | (nodekey, leaderSlots) :: rest, st =>
    match emitBlockInfosSlots cfg env nodekey epoch leaderSlots st with
    | .fatal => .fatal
    | .ok st' => emitBlockInfosSchedule cfg env epoch rest st'

/-- `SlotWatcher.fetchAndEmitBlockInfos` (slots.go, lines 469-495): for every
tracked nodekey's leader slots within the range, fetch the block and emit fee
rewards (and block sizes); the slot range is checked against the epoch
(fatal on violation). -/
def fetchAndEmitBlockInfos (cfg : ExporterConfig) (env : RpcEnv)
    (st : WatcherState) (startSlot endSlot : Int) : Outcome WatcherState :=
  if cfg.lightMode then .ok st
  else if startSlot < st.firstSlot ∨ st.lastSlot < endSlot then .fatal
  else
    emitBlockInfosSchedule cfg env st.currentEpoch
      (SelectFromSchedule st.leaderSchedule startSlot endSlot) st

/-- `SlotWatcher.moveSlotWatermark` (slots.go, lines 350-364): fetch block
production for the full epoch range, process the validator's leader slots,
fetch block infos, and then set `slotWatermark := toSlot`. A failed
block-production fetch returns with the state unchanged. -/
def moveSlotWatermark (cfg : ExporterConfig) (env : RpcEnv) (st : WatcherState)
    (toSlot currentSlot : Int) : Outcome WatcherState :=
  match env.getBlockProduction st.firstSlot st.lastSlot with
  | none => .ok st
  | some blockProduction =>
    match processLeaderSlotsForValidator cfg env st st.firstSlot st.lastSlot currentSlot
      blockProduction with
    | .fatal => .fatal
    | .ok st₁ =>
      match fetchAndEmitBlockInfos cfg env st₁ st.firstSlot st.lastSlot with
      | .fatal => .fatal
      | .ok st₂ => .ok { st₂ with slotWatermark := toSlot }

/-- Per-identity loop of `fetchAndEmitBlockProduction` (slots.go, lines
448-459): accumulate the cluster valid/skipped counters and collect the
nodekeys to track. -/
def emitClusterProduction (cfg : ExporterConfig) (epoch : Int) :
    List (String × HostProduction) → MetricVec (Int × String) → List String →
    MetricVec (Int × String) × List String
  | [], cluster, nodekeys => (cluster, nodekeys)
  | (address, production) :: rest, cluster, nodekeys =>
    let nodekeys :=
      if address ∈ cfg.nodeKeys ∨ cfg.comprehensiveSlotTracking then
        nodekeys ++ [address]
      else nodekeys
    let cluster := counterAdd cluster (epoch, "valid") (production.blocksProduced : ℚ)
    let cluster := counterAdd cluster (epoch, "skipped")
      ((production.leaderSlots - production.blocksProduced : Int) : ℚ)
    emitClusterProduction cfg epoch rest cluster nodekeys

/-- `SlotWatcher.fetchAndEmitBlockProduction` (slots.go, lines 424-465):
fetch block production for the range and, for every observed identity,
accumulate the cluster-wide valid/skipped counters and record configured (or
comprehensively tracked) identities into the epoch's tracked-nodekey set. -/
def fetchAndEmitBlockProduction (cfg : ExporterConfig) (env : RpcEnv)
    (st : WatcherState) (startSlot endSlot : Int) : Outcome WatcherState :=
  if cfg.lightMode then .ok st
  else if startSlot < st.firstSlot ∨ st.lastSlot < endSlot then .fatal
  else
    match env.getBlockProduction startSlot endSlot with
    | none => .ok st
    | some blockProduction =>
      let pair := emitClusterProduction cfg st.currentEpoch blockProduction
        st.clusterSlotsByEpochMetric []
      .ok { st with
        clusterSlotsByEpochMetric := pair.1,
        trackedNodekeys := AddTrackedNodekeys st.trackedNodekeys st.currentEpoch pair.2 }

/-- Per-reward loop of `fetchAndEmitInflationRewards` (slots.go, lines
566-587): positional pairing with the configured vote keys, skipping
out-of-bounds indices and zero-value reward infos, and adding the converted
amount to the inflation-reward counter. -/
def emitInflationRewards (voteKeys : List String) (epoch : Int) :
    List InflationReward → Nat → MetricVec (String × Int) → MetricVec (String × Int)
  | [], _, rewards => rewards
  | rewardInfo :: rest, i, rewards =>
    if h : i < voteKeys.length then
      let address := voteKeys.get ⟨i, h⟩
      if rewardInfo.amount = 0 ∧ rewardInfo.epoch = 0 then
        emitInflationRewards voteKeys epoch rest (i + 1) rewards
      else
        emitInflationRewards voteKeys epoch rest (i + 1)
          (counterAdd rewards (address, epoch) ((rewardInfo.amount : ℚ) / LamportsInSol))
    else emitInflationRewards voteKeys epoch rest (i + 1) rewards

/-- `SlotWatcher.fetchAndEmitInflationRewards` (slots.go, lines 554-590):
fetch the inflation rewards for the epoch (`none` models the returned fetch
error) and add each non-zero reward to the per-(votekey, epoch) counter.
Note that `emittedInflationRewards` is neither read nor written. -/
def fetchAndEmitInflationRewards (cfg : ExporterConfig) (env : RpcEnv)
    (st : WatcherState) (epoch : Int) : Option WatcherState :=
  if cfg.lightMode then some st
  else
    match env.getInflationReward epoch with
    | none => none
    | some rewardInfos =>
      some { st with inflationRewardsMetric :=
        emitInflationRewards cfg.voteKeys epoch rewardInfos 0 st.inflationRewardsMetric }

/-- The tail of `trackEpoch` (slots.go, lines 264-279), applied to the state
with the updated window: update the epoch gauges and, outside light mode,
refresh the trimmed leader schedule (a failed fetch is only logged). -/
def trackEpochTail (cfg : ExporterConfig) (env : RpcEnv) (st₁ : WatcherState) :
    Outcome WatcherState :=
  if cfg.lightMode then .ok { st₁ with epochNumberMetric := st₁.currentEpoch }
  else
    match FetchLeaderSchedule env
      { st₁ with epochNumberMetric := st₁.currentEpoch,
                 epochFirstSlotMetric := st₁.firstSlot,
                 epochLastSlotMetric := st₁.lastSlot }
      st₁.currentEpoch st₁.firstSlot with
    | none =>
      .ok { st₁ with epochNumberMetric := st₁.currentEpoch,
                     epochFirstSlotMetric := st₁.firstSlot,
                     epochLastSlotMetric := st₁.lastSlot }
    | some (leaderSchedule, st₄) =>
      .ok { st₄ with leaderSchedule :=
        GetTrimmedLeaderScheduleFromCache leaderSchedule cfg.nodeKeys }

/-- `SlotWatcher.trackEpoch` (slots.go, lines 248-280): initialize the epoch
window on first run (watermark at the observed slot minus one), otherwise
assert (fatally, via `assertf`) monotonic epoch increment, slot contiguity
and a fully advanced watermark before replacing the window; then run the
gauge/schedule tail. -/
def trackEpoch (cfg : ExporterConfig) (env : RpcEnv) (st : WatcherState)
    (epoch : EpochInfo) : Outcome WatcherState :=
  if st.currentEpoch = 0 then
    trackEpochTail cfg env
      { st with currentEpoch := epoch.epoch,
                firstSlot := (GetEpochBounds epoch).1,
                lastSlot := (GetEpochBounds epoch).2,
                slotWatermark := epoch.absoluteSlot - 1 }
  else if epoch.epoch ≠ st.currentEpoch + 1 then .fatal
  else if (GetEpochBounds epoch).1 ≠ st.lastSlot + 1 then .fatal
  else if st.slotWatermark ≠ st.lastSlot then .fatal
  else
    trackEpochTail cfg env
      { st with currentEpoch := epoch.epoch,
                firstSlot := (GetEpochBounds epoch).1,
                lastSlot := (GetEpochBounds epoch).2 }

/-- The per-epoch reset at the top of `closeCurrentEpoch` (slots.go, lines
315-318): zero the per-epoch leader-slot gauges and empty both outcome
sets. -/
def resetEpochGauges (st : WatcherState) : WatcherState :=
  { st with
      leaderSlotsProcessedEpochGauge := 0,
      leaderSlotsSkippedEpochGauge := 0,
      processedLeaderSlots := [],
      skippedLeaderSlots := [] }

/-- The inflation-reward step of `closeCurrentEpoch` (slots.go, lines
323-327): when vote keys are configured, emit the closing epoch's inflation
rewards; a fetch error is logged and leaves the state unchanged. -/
def closeInflationStep (cfg : ExporterConfig) (env : RpcEnv)
    (st : WatcherState) : WatcherState :=
  if cfg.voteKeys.length > 0 then
    match fetchAndEmitInflationRewards cfg env st st.currentEpoch with
    | none => st
    | some st' => st'
  else st

/-- `SlotWatcher.closeCurrentEpoch` (slots.go, lines 311-332): reset the
per-epoch gauges and outcome sets; outside light mode, emit inflation
rewards for the closing epoch (errors logged), perform the final watermark
advance to `lastSlot`, and spawn the deferred cleanup (modelled separately
by `cleanEpoch`); finally open the new epoch via `trackEpoch`. -/
def closeCurrentEpoch (cfg : ExporterConfig) (env : RpcEnv) (st : WatcherState)
    (newEpoch : EpochInfo) (currentSlot : Int) : Outcome WatcherState :=
  if cfg.lightMode then trackEpoch cfg env (resetEpochGauges st) newEpoch
  else
    match moveSlotWatermark cfg env (closeInflationStep cfg env (resetEpochGauges st))
      (closeInflationStep cfg env (resetEpochGauges st)).lastSlot currentSlot with
    | .fatal => .fatal
    | .ok st₂ => trackEpoch cfg env st₂ newEpoch

/-- The reward-deletion loop of `cleanEpoch` (slots.go, lines 297-300):
delete the epoch's fee-reward series for each configured nodekey and the
epoch's inflation-reward series for the positionally corresponding votekey;
`none` models the index-out-of-range panic when there are fewer vote keys
than node keys. -/
def cleanRewardSeries (epoch : Int) :
    List String → List String → MetricVec (String × Int) → MetricVec (String × Int) →
    Option (MetricVec (String × Int) × MetricVec (String × Int))
  | [], _, fees, inflation => some (fees, inflation)
  | nodekey :: rest, votekey :: vrest, fees, inflation =>
    cleanRewardSeries epoch rest vrest (counterDelete fees (nodekey, epoch))
      (counterDelete inflation (votekey, epoch))
  | _ :: _, [], _, _ => none

/-- `SlotWatcher.cleanEpoch` (slots.go, lines 283-307): wait for the
configured cleanup delay — a shutdown signal during the wait cancels the
cleanup without deleting anything — then delete the epoch's fee-reward,
inflation-reward and cluster slot-status series. -/
def cleanEpoch (cfg : ExporterConfig) (shutdownDuringDelay : Bool)
    (st : WatcherState) (epoch : Int) : Outcome WatcherState :=
  if shutdownDuringDelay then .ok st
  else
    match cleanRewardSeries epoch cfg.nodeKeys cfg.voteKeys st.feeRewardsMetric
      st.inflationRewardsMetric with
    | none => .fatal
    | some pair =>
      .ok { st with
        feeRewardsMetric := pair.1,
        inflationRewardsMetric := pair.2,
        clusterSlotsByEpochMetric :=
          counterDelete (counterDelete st.clusterSlotsByEpochMetric (epoch, "valid"))
            (epoch, "skipped") }

/-- Per-tick RPC observations: the environment for the parameterized calls
plus the results of this tick's `GetSlot` and `GetEpochInfo`. -/
structure TickInputs where
  env : RpcEnv
  getSlot : Option Int
  getEpochInfo : Option EpochInfo

/-- The per-tick gauge updates of the `WatchSlots` loop body (slots.go,
lines 215-224): slot height and epoch number always; transaction count and
block height only outside light mode. -/
def tickGauges (cfg : ExporterConfig) (ei : EpochInfo) (st : WatcherState) :
    WatcherState :=
  if cfg.lightMode then
    { st with slotHeightMetric := ei.absoluteSlot, epochNumberMetric := ei.epoch }
  else
    { st with slotHeightMetric := ei.absoluteSlot, epochNumberMetric := ei.epoch,
              totalTransactionsMetric := ei.transactionCount,
              blockHeightMetric := ei.blockHeight }

/-- One iteration of the `WatchSlots` loop body (slots.go, lines 194-242):
fetch the current slot and epoch info (errors skip the tick), initialize
tracking on first run, update the gauges, skip if the observed slot has not
advanced past the watermark, close the epoch on rollover, and outside light
mode advance the watermark by one slot
(`moveSlotWatermark(slotWatermark+1, currentSlot)`). -/
def WatchSlotsTick (cfg : ExporterConfig) (inp : TickInputs) (st : WatcherState) :
    Outcome WatcherState :=
  match inp.getSlot with
  | none => .ok st
  | some currentSlot =>
    match inp.getEpochInfo with
    | none => .ok st
    | some epochInfo =>
      match (if st.currentEpoch = 0 then trackEpoch cfg inp.env st epochInfo
             else .ok st) with
      | .fatal => .fatal
      | .ok st₁ =>
        if epochInfo.absoluteSlot ≤ (tickGauges cfg epochInfo st₁).slotWatermark then
          .ok (tickGauges cfg epochInfo st₁)
        else
          match (if (tickGauges cfg epochInfo st₁).currentEpoch < epochInfo.epoch then
                   closeCurrentEpoch cfg inp.env (tickGauges cfg epochInfo st₁)
                     epochInfo currentSlot
                 else .ok (tickGauges cfg epochInfo st₁)) with
          | .fatal => .fatal
          | .ok st₄ =>
            if cfg.lightMode then .ok st₄
            else moveSlotWatermark cfg inp.env st₄ (st₄.slotWatermark + 1) currentSlot

/-- A sequence of ticks of the `WatchSlots` loop; a fatal tick terminates
the run. -/
def runTicks (cfg : ExporterConfig) (st : WatcherState) :
    List TickInputs → Outcome WatcherState
  | [] => .ok st
  | inp :: rest =>
    match WatchSlotsTick cfg inp st with
    | .fatal => .fatal
    | .ok st' => runTicks cfg st' rest

/-! ### Concrete fixtures used by the concrete-input theorems -/

/-- A concrete watcher state: tracking epoch 5 with slot window `[0, 99]`,
watermark 10, empty schedule, caches, sets and metrics. -/
def baseState : WatcherState where
  currentEpoch := 5
  firstSlot := 0
  lastSlot := 99
  slotWatermark := 10
  leaderSchedule := []
  processedLeaderSlots := []
  skippedLeaderSlots := []
  emittedInflationRewards := []
  cachedLeaderSchedule := none
  cachedLeaderScheduleEpoch := 0
  trackedNodekeys := []
  slotHeightMetric := 0
  epochNumberMetric := 0
  totalTransactionsMetric := 0
  blockHeightMetric := 0
  epochFirstSlotMetric := 0
  epochLastSlotMetric := 0
  assignedLeaderSlotsGauge := 0
  leaderSlotsProcessedEpochGauge := 0
  leaderSlotsSkippedEpochGauge := 0
  clusterSlotsByEpochMetric := []
  inflationRewardsMetric := []
  feeRewardsMetric := []
  blockSizeMetric := []

/-- Regular-mode configuration with no configured keys and no validator
identity. -/
def plainConfig : ExporterConfig where
  lightMode := false
  nodeKeys := []
  voteKeys := []
  validatorIdentity := ""
  comprehensiveSlotTracking := false
  monitorBlockSizes := false

/-- Environment where block production succeeds (empty response) and all
other calls fail. -/
def baseEnv : RpcEnv where
  getLeaderSchedule := fun _ => none
  getBlockProduction := fun _ _ => some []
  getInflationReward := fun _ => none
  getBlock := fun _ => .rpcErr

/-- Epoch info observed mid-epoch-5: absolute slot 20, slot index 20 of 100
(so the window is `[0, 99]`). -/
def obsEpoch5 : EpochInfo where
  epoch := 5
  absoluteSlot := 20
  slotIndex := 20
  slotsInEpoch := 100
  transactionCount := 7
  blockHeight := 3

/-- Epoch info for the contiguous next epoch 6: absolute slot 100, slot
index 0 of 100 (so the window is `[100, 199]` and `firstSlot = 99 + 1`). -/
def nextEpochInfo : EpochInfo where
  epoch := 6
  absoluteSlot := 100
  slotIndex := 0
  slotsInEpoch := 100
  transactionCount := 0
  blockHeight := 0

/-- A tick observing epoch 5 at absolute slot 20. -/
def tickObs20 : TickInputs where
  env := baseEnv
  getSlot := some 20
  getEpochInfo := some obsEpoch5

/-- `plainConfig` with the tracked validator identity set to `V`. -/
def vConfig : ExporterConfig :=
  { plainConfig with validatorIdentity := "V" }

/-- Environment where block production reports identity `V` with 1 block
produced of 2 leader slots, and the leader-schedule fetch fails. -/
def vEnv : RpcEnv :=
  { baseEnv with getBlockProduction := fun _ _ => some [("V", ⟨1, 2⟩)] }

/-- Environment where the block-production fetch fails. -/
def bpErrEnv : RpcEnv :=
  { baseEnv with getBlockProduction := fun _ _ => none }

/-- `baseState` with the watermark at 50, short of `lastSlot = 99`. -/
def midWatermarkState : WatcherState :=
  { baseState with slotWatermark := 50 }

/-- Environment whose leader-schedule fetch returns the raw per-epoch index
schedule mapping `v` to index 5. -/
def rawSchedEnv : RpcEnv :=
  { baseEnv with getLeaderSchedule := fun _ => some [("v", [5])] }

/-- `plainConfig` with one configured vote key `V`. -/
def rewardConfig : ExporterConfig :=
  { plainConfig with voteKeys := ["V"] }

/-- Environment whose inflation-reward fetch returns a single reward of
5000000000 lamports (5 SOL) for epoch 100. -/
def rewardEnv : RpcEnv :=
  { baseEnv with getInflationReward := fun _ => some [⟨5000000000, 100⟩] }

/-- `plainConfig` with one configured node key `A`. -/
def clusterConfig : ExporterConfig :=
  { plainConfig with nodeKeys := ["A"] }

/-- Environment where block production reports identity `A` with 2 blocks
produced of 3 leader slots. -/
def clusterEnv : RpcEnv :=
  { baseEnv with getBlockProduction := fun _ _ => some [("A", ⟨2, 3⟩)] }

/-- `plainConfig` with node key `A` and vote key `W` configured. -/
def cleanConfig : ExporterConfig :=
  { plainConfig with nodeKeys := ["A"], voteKeys := ["W"] }

/-- State holding an epoch-7 fee-reward series for `A` and an epoch-7
inflation-reward series for `W`, while epoch 7 has an empty tracked-nodekey
map (in particular `A` is in no epoch's tracked set). -/
def cleanState : WatcherState :=
  { baseState with
      feeRewardsMetric := [(("A", 7), 1)]
      inflationRewardsMetric := [(("W", 7), 2)] }

/-- `baseState` with a cached leader schedule for epoch 5 assigning slot 20
to validator `V`. -/
def overlapState : WatcherState :=
  { baseState with
      cachedLeaderSchedule := some [("V", [20])]
      cachedLeaderScheduleEpoch := 5 }

/-- The state produced by classifying slot 20 as processed on
`overlapState`. -/
def c8ClosedState : WatcherState :=
  { overlapState with
      processedLeaderSlots := [20]
      assignedLeaderSlotsGauge := 1
      leaderSlotsProcessedEpochGauge := 1 }

/-- `plainConfig` with the tracked validator identity set to `V1`. -/
def prodConfig : ExporterConfig :=
  { plainConfig with validatorIdentity := "V1" }

/-- State with window `[0, 200]` and a cached epoch-5 leader schedule
assigning slots 100, 101, 102 to `V1`. -/
def prodState : WatcherState :=
  { baseState with
      lastSlot := 200
      cachedLeaderSchedule := some [("V1", [100, 101, 102])]
      cachedLeaderScheduleEpoch := 5 }

/-- Light-mode configuration. -/
def lightConfig : ExporterConfig :=
  { plainConfig with lightMode := true }

/-- A tick observing the rollover to epoch 6 at absolute slot 100. -/
def transTick : TickInputs where
  env := baseEnv
  getSlot := some 100
  getEpochInfo := some nextEpochInfo

/-- The state after a light-mode tick observing epoch 5 at slot 20 from
`baseState`: only the height and epoch gauges change. -/
def lightRunState : WatcherState :=
  { baseState with slotHeightMetric := 20, epochNumberMetric := 5 }

/-- The state of a regular-mode tick run from `baseState` observing epoch 5
at slot 20: gauges updated and the watermark advanced by one slot to 11. -/
def c1RunState : WatcherState :=
  { baseState with
      slotHeightMetric := 20
      epochNumberMetric := 5
      totalTransactionsMetric := 7
      blockHeightMetric := 3
      slotWatermark := 11 }

/-- `baseState` with the watermark fully advanced to `lastSlot = 99`, ready
for a non-fatal epoch open. -/
def closeReadyState : WatcherState :=
  { baseState with slotWatermark := 99 }

/-! ### Claim theorems -/

/-- C9: the block-production entry `[3, 10]` decodes as 3 blocks produced
and 10 leader slots assigned, and for a leader schedule giving validator
`V1` the slots 100, 101, 102, all at most the target, all three slots are
classified processed (and none skipped), because `BlocksProduced > 0` is the
sole classification criterion. -/
theorem C9_production_decode_and_classification :
    hostProductionUnmarshal [3, 10] = some ⟨3, 10⟩ ∧
    (Outcome.state (processLeaderSlotsForValidator prodConfig baseEnv prodState
        0 200 300 [("V1", ⟨3, 10⟩)])).map
      (fun s => (s.processedLeaderSlots, s.skippedLeaderSlots)) =
      some (([100, 101, 102] : List Int), ([] : List Int)) := by
  decide

/-- C1 counterexample: a tick of `WatchSlots` from watermark 10, observing
absolute slot 20 inside the current epoch with `lastSlot = 99` and a
successful advance, moves the watermark to 11, not to
`min(lastSlot, observedAbsoluteSlot) = 20`. -/
theorem C1_counterexample :
    (Outcome.state (WatchSlotsTick plainConfig tickObs20 baseState)).map
      (fun s => s.slotWatermark) = some 11 ∧
    (11 : Int) ≠ min 99 20 := by
  decide

/-- C3 counterexample: from a tracked state with `currentEpoch = 5`,
`lastSlot = 99` and watermark 50, the contiguous epoch-6 info satisfies both
conditions named by the claim (epoch increment by one, `firstSlot = 99 + 1`),
yet `trackEpoch` is fatal, because of the third assertion
`slotWatermark == lastSlot`. -/
theorem C3_counterexample :
    nextEpochInfo.epoch = midWatermarkState.currentEpoch + 1 ∧
    (GetEpochBounds nextEpochInfo).1 = midWatermarkState.lastSlot + 1 ∧
    midWatermarkState.slotWatermark ≠ midWatermarkState.lastSlot ∧
    trackEpoch plainConfig baseEnv midWatermarkState nextEpochInfo = .fatal := by
  decide

/-- C5 counterexample: during `moveSlotWatermark` the leader-schedule fetch
step fails (`getLeaderSchedule` errors, so `processLeaderSlotsForValidator`
bails out), yet the watermark is still committed to the target 11 instead of
retaining its prior value 10. -/
theorem C5_counterexample :
    vEnv.getLeaderSchedule 0 = none ∧
    baseState.cachedLeaderSchedule = none ∧
    vConfig.validatorIdentity ≠ "" ∧
    baseState.slotWatermark = 10 ∧
    (Outcome.state (moveSlotWatermark vConfig vEnv baseState 11 20)).map
      (fun s => s.slotWatermark) = some 11 := by
  decide

/-- C7 counterexample: epoch 7 has no tracked-nodekey entry at all (in
particular nodekey `A` is in no tracked set), yet `cleanEpoch` deletes the
epoch-7 fee-reward series of the configured nodekey `A` and the epoch-7
inflation-reward series of the configured votekey `W`; the tracked-nodekey
map is left untouched rather than consumed. -/
theorem C7_counterexample :
    trackerLookup cleanState.trackedNodekeys 7 = none ∧
    counterLookup cleanState.feeRewardsMetric ("A", 7) = some 1 ∧
    (Outcome.state (cleanEpoch cleanConfig false cleanState 7)).map
      (fun s => (counterLookup s.feeRewardsMetric ("A", 7),
                 counterLookup s.inflationRewardsMetric ("W", 7),
                 s.trackedNodekeys)) =
      some (none, none, ([] : TrackerMap)) := by
  decide

/-- C8 counterexample: with leader slot 20 and the epoch-wide production
response changing from 0 produced blocks (first call) to 1 produced block
(second call), slot 20 ends up in both the processed and the skipped set,
so the two sets are not disjoint. -/
theorem C8_counterexample :
    (Outcome.state
      (match processLeaderSlotsForValidator vConfig baseEnv overlapState 0 99 50
          [("V", ⟨0, 2⟩)] with
        | .fatal => .fatal
        | .ok st' => processLeaderSlotsForValidator vConfig baseEnv st' 0 99 60
            [("V", ⟨1, 2⟩)])).map
      (fun s => (s.processedLeaderSlots, s.skippedLeaderSlots)) =
      some (([20] : List Int), ([20] : List Int)) ∧
    (20 : Int) ∈ ([20] : List Int) ∩ ([20] : List Int) := by
  decide

/-- C2: the live cache-miss fetch path (`FetchLeaderSchedule`) stores and
returns the RPC's raw per-epoch slot indices unchanged — with
`epochFirstSlot = 1000` a raw entry of index 5 stays 5, it does not become
the absolute slot 1005; the index-to-absolute conversion claimed by the spec
exists in the repository only in `GetTrimmedLeaderSchedule`, which no live
code path calls. -/
theorem C2_cache_miss_keeps_raw_indices :
    (FetchLeaderSchedule rawSchedEnv baseState 5 1000).map
      (fun p => (p.1, p.2.cachedLeaderSchedule)) =
      some ([("v", [5])], some [("v", [5])]) ∧
    GetTrimmedLeaderSchedule [("v", [5])] ["v"] 1000 = [("v", [1005])] ∧
    (5 : Int) ≠ 1005 := by
  decide

/-- C4: `fetchAndEmitInflationRewards` consults no per-(votekey, epoch)
marker — executing the fetch-and-emit step twice for the same epoch adds the
5 SOL reward of votekey `V` twice (cumulative counter 10), and the declared
`emittedInflationRewards` record stays empty throughout. -/
theorem C4_duplicate_emission_not_prevented :
    ((fetchAndEmitInflationRewards rewardConfig rewardEnv baseState 100).bind
      (fun s1 => fetchAndEmitInflationRewards rewardConfig rewardEnv s1 100)).map
      (fun s2 => (counterLookup s2.inflationRewardsMetric ("V", 100),
                  s2.emittedInflationRewards)) =
      some (some 10, ([] : List (String × Int))) := by
  simp only [fetchAndEmitInflationRewards, rewardConfig, rewardEnv, baseState, plainConfig,
    baseEnv, emitInflationRewards, LamportsInSol]
  norm_num [counterAdd, counterLookup]

/-- C6: a successful watermark advance (`moveSlotWatermark`) over a
production response containing identity `A` (2 of 3 leader slots produced)
leaves the cluster-wide valid/skipped counters and the tracked-nodekey set
unchanged — the operation that would accumulate them,
`fetchAndEmitBlockProduction`, is not invoked by the advance, though when
invoked directly on the same state and response it adds the counters and
records `A`. -/
theorem C6_advance_skips_cluster_accumulation :
    (Outcome.state (moveSlotWatermark clusterConfig clusterEnv baseState 11 20)).map
      (fun s => (s.slotWatermark, s.clusterSlotsByEpochMetric, s.trackedNodekeys)) =
      some (11, ([] : MetricVec (Int × String)), ([] : TrackerMap)) ∧
    (Outcome.state (fetchAndEmitBlockProduction clusterConfig clusterEnv baseState 0 99)).map
      (fun s => (s.clusterSlotsByEpochMetric, s.trackedNodekeys)) =
      some ([((5, "valid"), 2), ((5, "skipped"), 1)], [(5, ["A"])]) := by
  decide

/-! ### Preservation lemmas for the epoch window and watermark -/

/-- `FetchLeaderSchedule` only mutates the leader-schedule cache: the epoch
window, the watermark and the outcome sets are untouched. -/
theorem FetchLeaderSchedule_fields {env : RpcEnv} {st st' : WatcherState}
    {e f : Int} {ls : List (String × List Int)}
    (h : FetchLeaderSchedule env st e f = some (ls, st')) :
    st'.currentEpoch = st.currentEpoch ∧ st'.firstSlot = st.firstSlot ∧
    st'.lastSlot = st.lastSlot ∧ st'.slotWatermark = st.slotWatermark ∧
    st'.processedLeaderSlots = st.processedLeaderSlots ∧
    st'.skippedLeaderSlots = st.skippedLeaderSlots ∧
    st'.leaderSchedule = st.leaderSchedule := by
  unfold FetchLeaderSchedule at h
  split at h
  · split at h
    · simp only [Option.some.injEq, Prod.mk.injEq] at h
      obtain ⟨-, h2⟩ := h
      subst h2
      exact ⟨rfl, rfl, rfl, rfl, rfl, rfl, rfl⟩
    · split at h
      · exact absurd h (by simp)
      · simp only [Option.some.injEq, Prod.mk.injEq] at h
        obtain ⟨-, h2⟩ := h
        subst h2
        exact ⟨rfl, rfl, rfl, rfl, rfl, rfl, rfl⟩
  · split at h
    · exact absurd h (by simp)
    · simp only [Option.some.injEq, Prod.mk.injEq] at h
      obtain ⟨-, h2⟩ := h
      subst h2
      exact ⟨rfl, rfl, rfl, rfl, rfl, rfl, rfl⟩

/-- `fetchAndEmitSingleBlockInfo` only mutates the fee-reward and block-size
metrics. -/
theorem fetchAndEmitSingleBlockInfo_fields {cfg : ExporterConfig} {env : RpcEnv}
    {st st' : WatcherState} {nodekey : String} {epoch slot : Int}
    (h : fetchAndEmitSingleBlockInfo cfg env st nodekey epoch slot = .ok st') :
    st'.currentEpoch = st.currentEpoch ∧ st'.firstSlot = st.firstSlot ∧
    st'.lastSlot = st.lastSlot ∧ st'.slotWatermark = st.slotWatermark ∧
    st'.processedLeaderSlots = st.processedLeaderSlots ∧
    st'.skippedLeaderSlots = st.skippedLeaderSlots := by
  unfold fetchAndEmitSingleBlockInfo at h
  split at h
  · cases h; exact ⟨rfl, rfl, rfl, rfl, rfl, rfl⟩
  · cases h; exact ⟨rfl, rfl, rfl, rfl, rfl, rfl⟩
  · split at h
    · exact absurd h (by simp)
    · split at h
      · cases h; exact ⟨rfl, rfl, rfl, rfl, rfl, rfl⟩
      · cases h; exact ⟨rfl, rfl, rfl, rfl, rfl, rfl⟩

/-- The per-slot block-info loop preserves the epoch window, the watermark
and the outcome sets. -/
theorem emitBlockInfosSlots_fields {cfg : ExporterConfig} {env : RpcEnv}
    {nodekey : String} {epoch : Int} {slots : List Int} {st st' : WatcherState}
    (h : emitBlockInfosSlots cfg env nodekey epoch slots st = .ok st') :
    st'.currentEpoch = st.currentEpoch ∧ st'.firstSlot = st.firstSlot ∧
    st'.lastSlot = st.lastSlot ∧ st'.slotWatermark = st.slotWatermark ∧
    st'.processedLeaderSlots = st.processedLeaderSlots ∧
    st'.skippedLeaderSlots = st.skippedLeaderSlots := by
  induction slots generalizing st with
  | nil =>
    unfold emitBlockInfosSlots at h
    cases h
    exact ⟨rfl, rfl, rfl, rfl, rfl, rfl⟩
  | cons slot rest ih =>
    unfold emitBlockInfosSlots at h
    split at h
    · exact absurd h (by simp)
    · rename_i st₁ hstep
      obtain ⟨e1, e2, e3, e4, e5, e6⟩ := fetchAndEmitSingleBlockInfo_fields hstep
      obtain ⟨f1, f2, f3, f4, f5, f6⟩ := ih h
      exact ⟨f1.trans e1, f2.trans e2, f3.trans e3, f4.trans e4, f5.trans e5, f6.trans e6⟩

/-- The per-nodekey block-info loop preserves the epoch window, the
watermark and the outcome sets. -/
theorem emitBlockInfosSchedule_fields {cfg : ExporterConfig} {env : RpcEnv}
    {epoch : Int} {sched : List (String × List Int)} {st st' : WatcherState}
    (h : emitBlockInfosSchedule cfg env epoch sched st = .ok st') :
    st'.currentEpoch = st.currentEpoch ∧ st'.firstSlot = st.firstSlot ∧
    st'.lastSlot = st.lastSlot ∧ st'.slotWatermark = st.slotWatermark ∧
    st'.processedLeaderSlots = st.processedLeaderSlots ∧
    st'.skippedLeaderSlots = st.skippedLeaderSlots := by
  induction sched generalizing st with
  | nil =>
    unfold emitBlockInfosSchedule at h
    cases h
    exact ⟨rfl, rfl, rfl, rfl, rfl, rfl⟩
  | cons kv rest ih =>
    obtain ⟨nodekey, leaderSlots⟩ := kv
    unfold emitBlockInfosSchedule at h
    split at h
    · exact absurd h (by simp)
    · rename_i st₁ hstep
      obtain ⟨e1, e2, e3, e4, e5, e6⟩ := emitBlockInfosSlots_fields hstep
      obtain ⟨f1, f2, f3, f4, f5, f6⟩ := ih h
      exact ⟨f1.trans e1, f2.trans e2, f3.trans e3, f4.trans e4, f5.trans e5, f6.trans e6⟩

/-- `fetchAndEmitBlockInfos` preserves the epoch window, the watermark and
the outcome sets. -/
theorem fetchAndEmitBlockInfos_fields {cfg : ExporterConfig} {env : RpcEnv}
    {st st' : WatcherState} {startSlot endSlot : Int}
    (h : fetchAndEmitBlockInfos cfg env st startSlot endSlot = .ok st') :
    st'.currentEpoch = st.currentEpoch ∧ st'.firstSlot = st.firstSlot ∧
    st'.lastSlot = st.lastSlot ∧ st'.slotWatermark = st.slotWatermark ∧
    st'.processedLeaderSlots = st.processedLeaderSlots ∧
    st'.skippedLeaderSlots = st.skippedLeaderSlots := by
  unfold fetchAndEmitBlockInfos at h
  split at h
  · cases h; exact ⟨rfl, rfl, rfl, rfl, rfl, rfl⟩
  · split at h
    · exact absurd h (by simp)
    · exact emitBlockInfosSchedule_fields h

/-- `processLeaderSlotsForValidator` preserves the epoch window and the
watermark. -/
theorem processLeaderSlotsForValidator_fields {cfg : ExporterConfig}
    {env : RpcEnv} {st st' : WatcherState}
    {startSlot endSlot currentSlot : Int}
    {bp : List (String × HostProduction)}
    (h : processLeaderSlotsForValidator cfg env st startSlot endSlot currentSlot bp =
      .ok st') :
    st'.currentEpoch = st.currentEpoch ∧ st'.firstSlot = st.firstSlot ∧
    st'.lastSlot = st.lastSlot ∧ st'.slotWatermark = st.slotWatermark := by
  unfold processLeaderSlotsForValidator at h
  split at h
  · cases h; exact ⟨rfl, rfl, rfl, rfl⟩
  · split at h
    all_goals
      split at h
      next => exact Outcome.noConfusion h
      next =>
        split at h
        next => cases h; exact ⟨rfl, rfl, rfl, rfl⟩
        next =>
          split at h
          next => cases h; exact ⟨rfl, rfl, rfl, rfl⟩
          next ls st₁ hfetch =>
            obtain ⟨e1, e2, e3, e4, -, -, -⟩ := FetchLeaderSchedule_fields hfetch
            cases h
            exact ⟨e1, e2, e3, e4⟩

/-- If the block-production fetch fails, `moveSlotWatermark` returns with
the state (in particular the watermark) unchanged. -/
theorem moveSlotWatermark_bp_err {cfg : ExporterConfig} {env : RpcEnv}
    {st : WatcherState} {toSlot currentSlot : Int}
    (h : env.getBlockProduction st.firstSlot st.lastSlot = none) :
    moveSlotWatermark cfg env st toSlot currentSlot = .ok st := by
  unfold moveSlotWatermark
  rw [h]

/-- If the block-production fetch succeeds and `moveSlotWatermark` does not
fatal, the watermark is committed to `toSlot` — regardless of failures in
the leader-slot processing or block-info steps. -/
theorem moveSlotWatermark_commit {cfg : ExporterConfig} {env : RpcEnv}
    {st st' : WatcherState} {toSlot currentSlot : Int}
    {bp : List (String × HostProduction)}
    (hbp : env.getBlockProduction st.firstSlot st.lastSlot = some bp)
    (h : moveSlotWatermark cfg env st toSlot currentSlot = .ok st') :
    st'.slotWatermark = toSlot := by
  unfold moveSlotWatermark at h
  split at h
  next heq => rw [hbp] at heq; exact Option.noConfusion heq
  next bp' heq =>
    split at h
    next => exact Outcome.noConfusion h
    next st₁ hproc =>
      split at h
      next => exact Outcome.noConfusion h
      next st₂ hinfos => cases h; rfl

/-- A non-fatal `moveSlotWatermark` preserves the epoch window, and either
commits the watermark to `toSlot` or leaves the whole state unchanged. -/
theorem moveSlotWatermark_fields {cfg : ExporterConfig} {env : RpcEnv}
    {st st' : WatcherState} {toSlot currentSlot : Int}
    (h : moveSlotWatermark cfg env st toSlot currentSlot = .ok st') :
    st'.currentEpoch = st.currentEpoch ∧ st'.firstSlot = st.firstSlot ∧
    st'.lastSlot = st.lastSlot ∧
    (st'.slotWatermark = toSlot ∨ st' = st) := by
  unfold moveSlotWatermark at h
  split at h
  next heq => cases h; exact ⟨rfl, rfl, rfl, Or.inr rfl⟩
  next bp' heq =>
    split at h
    next => exact Outcome.noConfusion h
    next st₁ hproc =>
      split at h
      next => exact Outcome.noConfusion h
      next st₂ hinfos =>
        obtain ⟨p1, p2, p3, p4⟩ := processLeaderSlotsForValidator_fields hproc
        obtain ⟨i1, i2, i3, i4, -, -⟩ := fetchAndEmitBlockInfos_fields hinfos
        cases h
        exact ⟨i1.trans p1, i2.trans p2, i3.trans p3, Or.inl rfl⟩

/-- The gauge/schedule tail of `trackEpoch` preserves the epoch window and
the watermark. -/
theorem trackEpochTail_fields {cfg : ExporterConfig} {env : RpcEnv}
    {st₁ st' : WatcherState} (h : trackEpochTail cfg env st₁ = .ok st') :
    st'.currentEpoch = st₁.currentEpoch ∧ st'.firstSlot = st₁.firstSlot ∧
    st'.lastSlot = st₁.lastSlot ∧ st'.slotWatermark = st₁.slotWatermark := by
  unfold trackEpochTail at h
  split at h
  · cases h; exact ⟨rfl, rfl, rfl, rfl⟩
  · split at h
    · cases h; exact ⟨rfl, rfl, rfl, rfl⟩
    · rename_i ls st₄ hfetch
      obtain ⟨e1, e2, e3, e4, -, -, -⟩ := FetchLeaderSchedule_fields hfetch
      cases h
      exact ⟨e1, e2, e3, e4⟩

/-- The gauge/schedule tail of `trackEpoch` never terminates the process. -/
theorem trackEpochTail_not_fatal (cfg : ExporterConfig) (env : RpcEnv)
    (st₁ : WatcherState) : trackEpochTail cfg env st₁ ≠ .fatal := by
  unfold trackEpochTail
  split
  · simp
  · split <;> simp

/-- C3 amended: for an already-initialized tracker, `trackEpoch` is fatal
precisely when the incoming epoch is not the tracked epoch plus one, or the
incoming first slot is not the outgoing last slot plus one, or the watermark
has not reached the outgoing last slot; when all three conditions hold the
epoch window is replaced (and the watermark is left where it was). -/
theorem C3_amended_open_assertions {cfg : ExporterConfig} {env : RpcEnv}
    {st : WatcherState} {ei : EpochInfo} (hinit : st.currentEpoch ≠ 0) :
    (trackEpoch cfg env st ei = .fatal ↔
      ¬(ei.epoch = st.currentEpoch + 1 ∧ (GetEpochBounds ei).1 = st.lastSlot + 1 ∧
        st.slotWatermark = st.lastSlot)) ∧
    (∀ st', trackEpoch cfg env st ei = .ok st' →
      st'.currentEpoch = ei.epoch ∧ st'.firstSlot = (GetEpochBounds ei).1 ∧
      st'.lastSlot = (GetEpochBounds ei).2 ∧ st'.slotWatermark = st.slotWatermark) := by
  constructor
  · constructor
    · intro hf hcon
      obtain ⟨h1, h2, h3⟩ := hcon
      unfold trackEpoch at hf
      rw [if_neg hinit, if_neg (not_not_intro h1), if_neg (not_not_intro h2),
        if_neg (not_not_intro h3)] at hf
      exact trackEpochTail_not_fatal _ _ _ hf
    · intro hncon
      unfold trackEpoch
      rw [if_neg hinit]
      by_cases h1 : ei.epoch = st.currentEpoch + 1
      · by_cases h2 : (GetEpochBounds ei).1 = st.lastSlot + 1
        · by_cases h3 : st.slotWatermark = st.lastSlot
          · exact absurd ⟨h1, h2, h3⟩ hncon
          · rw [if_neg (not_not_intro h1), if_neg (not_not_intro h2), if_pos h3]
        · rw [if_neg (not_not_intro h1), if_pos h2]
      · rw [if_pos h1]
  · intro st' hok
    unfold trackEpoch at hok
    rw [if_neg hinit] at hok
    by_cases h1 : ei.epoch = st.currentEpoch + 1
    · by_cases h2 : (GetEpochBounds ei).1 = st.lastSlot + 1
      · by_cases h3 : st.slotWatermark = st.lastSlot
        · rw [if_neg (not_not_intro h1), if_neg (not_not_intro h2),
            if_neg (not_not_intro h3)] at hok
          obtain ⟨e1, e2, e3, e4⟩ := trackEpochTail_fields hok
          exact ⟨e1, e2, e3, e4⟩
        · rw [if_neg (not_not_intro h1), if_neg (not_not_intro h2), if_pos h3] at hok
          exact Outcome.noConfusion hok
      · rw [if_neg (not_not_intro h1), if_pos h2] at hok
        exact Outcome.noConfusion hok
    · rw [if_pos h1] at hok
      exact Outcome.noConfusion hok

/-- C5 amended: the watermark is committed to the target only when the
initial block-production fetch succeeds — if that fetch fails the whole
state (in particular the watermark) is unchanged and the range is retried
next tick; failures in the later leader-slot or block-info steps do not
prevent the commit. -/
theorem C5_amended_commit_rule (cfg : ExporterConfig) (env : RpcEnv)
    (st : WatcherState) (toSlot currentSlot : Int) :
    (env.getBlockProduction st.firstSlot st.lastSlot = none →
      moveSlotWatermark cfg env st toSlot currentSlot = .ok st) ∧
    (∀ bp st', env.getBlockProduction st.firstSlot st.lastSlot = some bp →
      moveSlotWatermark cfg env st toSlot currentSlot = .ok st' →
      st'.slotWatermark = toSlot) :=
  ⟨fun h => moveSlotWatermark_bp_err h,
   fun _ _ hbp h => moveSlotWatermark_commit hbp h⟩

/-- Concrete instantiation of the C5 amended theorem: a failed
block-production fetch leaves the state unchanged. -/
theorem C5_amended_witness :
    moveSlotWatermark vConfig bpErrEnv baseState 11 20 = .ok baseState :=
  (C5_amended_commit_rule vConfig bpErrEnv baseState 11 20).1 rfl

/-- `tickGauges` only writes gauge metrics. -/
theorem tickGauges_fields (cfg : ExporterConfig) (ei : EpochInfo)
    (st : WatcherState) :
    (tickGauges cfg ei st).currentEpoch = st.currentEpoch ∧
    (tickGauges cfg ei st).firstSlot = st.firstSlot ∧
    (tickGauges cfg ei st).lastSlot = st.lastSlot ∧
    (tickGauges cfg ei st).slotWatermark = st.slotWatermark := by
  unfold tickGauges
  split <;> exact ⟨rfl, rfl, rfl, rfl⟩

/-- A regular-mode tick that observes the tracked epoch (no rollover)
preserves the epoch window, and moves the watermark at most one slot
forward and never past the epoch end nor past any bound on the observed
absolute slot. -/
theorem tick_no_rollover {cfg : ExporterConfig} {inp : TickInputs}
    {st st' : WatcherState} {B : Int}
    (hlight : cfg.lightMode = false)
    (hinit : st.currentEpoch ≠ 0)
    (hobs : ∀ ei, inp.getEpochInfo = some ei →
      ei.epoch = st.currentEpoch ∧ ei.absoluteSlot ≤ st.lastSlot ∧ ei.absoluteSlot ≤ B)
    (hwl : st.slotWatermark ≤ st.lastSlot)
    (hwb : st.slotWatermark ≤ B)
    (h : WatchSlotsTick cfg inp st = .ok st') :
    st'.currentEpoch = st.currentEpoch ∧ st'.firstSlot = st.firstSlot ∧
    st'.lastSlot = st.lastSlot ∧ st.slotWatermark ≤ st'.slotWatermark ∧
    st'.slotWatermark ≤ st.lastSlot ∧ st'.slotWatermark ≤ B := by
  unfold WatchSlotsTick at h
  split at h
  next => cases h; exact ⟨rfl, rfl, rfl, le_refl _, hwl, hwb⟩
  next currentSlot hslot =>
    split at h
    next => cases h; exact ⟨rfl, rfl, rfl, le_refl _, hwl, hwb⟩
    next ei hei =>
      obtain ⟨heq, hla, hbb⟩ := hobs ei hei
      rw [if_neg hinit] at h
      obtain ⟨g1, g2, g3, g4⟩ := tickGauges_fields cfg ei st
      split at h
      next => exact Outcome.noConfusion h
      next st₁ hok =>
        cases hok
        split at h
        next hskip =>
          cases h
          exact ⟨g1, g2, g3, g4.ge, g4.le.trans hwl, g4.le.trans hwb⟩
        next hskip =>
          rw [if_neg (by rw [g1, heq]; exact lt_irrefl _)] at h
          split at h
          next => exact Outcome.noConfusion h
          next st₄ hok4 =>
            cases hok4
            rw [hlight, if_neg Bool.false_ne_true] at h
            obtain ⟨m1, m2, m3, m4⟩ := moveSlotWatermark_fields h
            rw [g4] at hskip
            rcases m4 with hm | hm <;>
              refine ⟨m1.trans g1, m2.trans g2, m3.trans g3, ?_, ?_, ?_⟩ <;>
                simp only [hm, g4] <;> omega

/-- A regular-mode tick that observes the tracked epoch past the watermark
and whose block-production fetch succeeds commits the watermark to exactly
`slotWatermark + 1`. -/
theorem tick_advance_plus_one {cfg : ExporterConfig} {inp : TickInputs}
    {st st₁ : WatcherState} {cur : Int} {ei : EpochInfo}
    {bp : List (String × HostProduction)}
    (hlight : cfg.lightMode = false)
    (hinit : st.currentEpoch ≠ 0)
    (hslot : inp.getSlot = some cur)
    (hei : inp.getEpochInfo = some ei)
    (heq : ei.epoch = st.currentEpoch)
    (hadv : st.slotWatermark < ei.absoluteSlot)
    (hbp : inp.env.getBlockProduction st.firstSlot st.lastSlot = some bp)
    (h : WatchSlotsTick cfg inp st = .ok st₁) :
    st₁.slotWatermark = st.slotWatermark + 1 := by
  unfold WatchSlotsTick at h
  rw [hslot, hei] at h
  dsimp only at h
  rw [if_neg hinit] at h
  obtain ⟨g1, g2, g3, g4⟩ := tickGauges_fields cfg ei st
  split at h
  next => exact Outcome.noConfusion h
  next st₀ hok =>
    cases hok
    split at h
    next hskip => rw [g4] at hskip; omega
    next hskip =>
      rw [if_neg (by rw [g1, heq]; exact lt_irrefl _)] at h
      split at h
      next => exact Outcome.noConfusion h
      next st₄ hok4 =>
        cases hok4
        rw [hlight, if_neg Bool.false_ne_true] at h
        have hbp' : inp.env.getBlockProduction (tickGauges cfg ei st).firstSlot
            (tickGauges cfg ei st).lastSlot = some bp := by
          rw [g2, g3]; exact hbp
        rw [moveSlotWatermark_commit hbp' h, g4]

/-- C1 amended: across any sequence of regular-mode ticks that observe the
tracked epoch (no rollover) with observed absolute slots bounded by the
epoch end and by `B`, the watermark is non-decreasing and never exceeds
`min(lastSlot, B)` (instantiate `B` with the latest observed slot of a
monotonically non-decreasing observation sequence); moreover each advancing
tick with a successful block-production fetch moves the watermark to exactly
`slotWatermark + 1`, not to `min(lastSlot, observed)`. -/
theorem C1_amended_watermark_invariant {cfg : ExporterConfig}
    {st st' : WatcherState} {B : Int} {ticks : List TickInputs}
    (hlight : cfg.lightMode = false)
    (hinit : st.currentEpoch ≠ 0)
    (hobs : ∀ inp ∈ ticks, ∀ ei, inp.getEpochInfo = some ei →
      ei.epoch = st.currentEpoch ∧ ei.absoluteSlot ≤ st.lastSlot ∧ ei.absoluteSlot ≤ B)
    (hwl : st.slotWatermark ≤ st.lastSlot)
    (hwb : st.slotWatermark ≤ B)
    (hrun : runTicks cfg st ticks = .ok st') :
    (st.slotWatermark ≤ st'.slotWatermark ∧ st'.slotWatermark ≤ st.lastSlot ∧
      st'.slotWatermark ≤ B) ∧
    (∀ inp cur ei bp st₁, inp.getSlot = some cur → inp.getEpochInfo = some ei →
      ei.epoch = st'.currentEpoch → st'.slotWatermark < ei.absoluteSlot →
      inp.env.getBlockProduction st'.firstSlot st'.lastSlot = some bp →
      WatchSlotsTick cfg inp st' = .ok st₁ →
      st₁.slotWatermark = st'.slotWatermark + 1) := by
  induction ticks generalizing st with
  | nil =>
    unfold runTicks at hrun
    cases hrun
    exact ⟨⟨le_refl _, hwl, hwb⟩,
      fun inp cur ei bp st₁ hs he heq hadv hbp h =>
        tick_advance_plus_one hlight hinit hs he heq hadv hbp h⟩
  | cons inp rest ih =>
    unfold runTicks at hrun
    split at hrun
    next => exact Outcome.noConfusion hrun
    next stNext hstep =>
      obtain ⟨e1, e2, e3, t4, t5, t6⟩ :=
        tick_no_rollover hlight hinit (hobs inp (List.mem_cons_self inp rest)) hwl hwb hstep
      have hinit' : stNext.currentEpoch ≠ 0 := by rw [e1]; exact hinit
      have hobs' : ∀ inp' ∈ rest, ∀ ei, inp'.getEpochInfo = some ei →
          ei.epoch = stNext.currentEpoch ∧ ei.absoluteSlot ≤ stNext.lastSlot ∧
          ei.absoluteSlot ≤ B := by
        intro inp' hmem ei hei
        obtain ⟨o1, o2, o3⟩ := hobs inp' (List.mem_cons_of_mem inp hmem) ei hei
        exact ⟨by rw [e1]; exact o1, by rw [e3]; exact o2, o3⟩
      have hwl' : stNext.slotWatermark ≤ stNext.lastSlot := by rw [e3]; exact t5
      obtain ⟨⟨r1, r2, r3⟩, rplus⟩ := ih hinit' hobs' hwl' t6 hrun
      exact ⟨⟨t4.trans r1, by rw [← e3]; exact r2, r3⟩, rplus⟩

/-- Concrete instantiation of the C1 amended theorem on a single advancing
tick observing slot 20 in epoch 5. -/
theorem C1_amended_witness :
    baseState.slotWatermark ≤ c1RunState.slotWatermark ∧
    c1RunState.slotWatermark ≤ baseState.lastSlot ∧
    c1RunState.slotWatermark ≤ 20 :=
  (@C1_amended_watermark_invariant plainConfig baseState c1RunState 20
    [tickObs20] rfl (by decide)
    (by
      intro inp hmem ei hei
      rw [List.mem_singleton] at hmem
      subst hmem
      simp only [tickObs20, Option.some.injEq] at hei
      subst hei
      exact ⟨by decide, by decide, by decide⟩)
    (by decide) (by decide) (by decide)).1

/-- An initialized tracker with a watermark short of the epoch end makes
`trackEpoch` fatal, whatever the incoming epoch info. -/
theorem trackEpoch_fatal_of_watermark {cfg : ExporterConfig} {env : RpcEnv}
    {st : WatcherState} {ei : EpochInfo}
    (hinit : st.currentEpoch ≠ 0) (hwm : st.slotWatermark ≠ st.lastSlot) :
    trackEpoch cfg env st ei = .fatal := by
  unfold trackEpoch
  rw [if_neg hinit]
  by_cases h1 : ei.epoch = st.currentEpoch + 1
  · by_cases h2 : (GetEpochBounds ei).1 = st.lastSlot + 1
    · rw [if_neg (not_not_intro h1), if_neg (not_not_intro h2), if_pos hwm]
    · rw [if_neg (not_not_intro h1), if_pos h2]
  · rw [if_pos h1]

/-- A light-mode tick that observes no epoch rollover leaves the epoch
window and the watermark unchanged. -/
theorem tick_light_no_rollover {cfg : ExporterConfig} {inp : TickInputs}
    {st st' : WatcherState}
    (hlight : cfg.lightMode = true)
    (hinit : st.currentEpoch ≠ 0)
    (hobs : ∀ ei, inp.getEpochInfo = some ei → ei.epoch ≤ st.currentEpoch)
    (h : WatchSlotsTick cfg inp st = .ok st') :
    st'.currentEpoch = st.currentEpoch ∧ st'.firstSlot = st.firstSlot ∧
    st'.lastSlot = st.lastSlot ∧ st'.slotWatermark = st.slotWatermark := by
  unfold WatchSlotsTick at h
  split at h
  next => cases h; exact ⟨rfl, rfl, rfl, rfl⟩
  next currentSlot hslot =>
    split at h
    next => cases h; exact ⟨rfl, rfl, rfl, rfl⟩
    next ei hei =>
      rw [if_neg hinit] at h
      obtain ⟨g1, g2, g3, g4⟩ := tickGauges_fields cfg ei st
      split at h
      next => exact Outcome.noConfusion h
      next st₁ hok =>
        cases hok
        split at h
        next hskip =>
          cases h
          exact ⟨g1, g2, g3, g4⟩
        next hskip =>
          rw [if_neg (by rw [g1]; exact not_lt.mpr (hobs ei hei))] at h
          split at h
          next => exact Outcome.noConfusion h
          next st₄ hok4 =>
            cases hok4
            cases h
            exact ⟨g1, g2, g3, g4⟩

/-- A light-mode tick that observes an epoch rollover past the watermark,
while the watermark is short of the epoch end, terminates the process. -/
theorem tick_light_rollover_fatal {cfg : ExporterConfig} {inp : TickInputs}
    {st : WatcherState} {cur : Int} {ei : EpochInfo}
    (hlight : cfg.lightMode = true)
    (hinit : st.currentEpoch ≠ 0)
    (hslot : inp.getSlot = some cur)
    (hei : inp.getEpochInfo = some ei)
    (hroll : st.currentEpoch < ei.epoch)
    (hadv : st.slotWatermark < ei.absoluteSlot)
    (hwm : st.slotWatermark ≠ st.lastSlot) :
    WatchSlotsTick cfg inp st = .fatal := by
  unfold WatchSlotsTick
  rw [hslot, hei]
  dsimp only
  rw [if_neg hinit]
  dsimp only
  obtain ⟨g1, g2, g3, g4⟩ := tickGauges_fields cfg ei st
  rw [if_neg (by rw [g4]; omega)]
  rw [if_pos (by rw [g1]; exact hroll)]
  have hclose : closeCurrentEpoch cfg inp.env (tickGauges cfg ei st) ei cur = .fatal := by
    unfold closeCurrentEpoch
    rw [if_pos hlight]
    exact trackEpoch_fatal_of_watermark
      (by show (tickGauges cfg ei st).currentEpoch ≠ 0; rw [g1]; exact hinit)
      (by show (tickGauges cfg ei st).slotWatermark ≠ (tickGauges cfg ei st).lastSlot
          rw [g4, g3]; exact hwm)
  rw [hclose]

/-- A light-mode tick from an uninitialized tracker initializes the window
and sets the watermark to the observed absolute slot minus one, which is
strictly below the epoch's last slot whenever the observed slot index is
within the epoch. -/
theorem tick_light_init {cfg : ExporterConfig} {inp : TickInputs}
    {st : WatcherState} {cur : Int} {ei : EpochInfo}
    (hlight : cfg.lightMode = true)
    (hinit : st.currentEpoch = 0)
    (hslot : inp.getSlot = some cur)
    (hei : inp.getEpochInfo = some ei)
    (hidx : ei.slotIndex < ei.slotsInEpoch) :
    ∃ stI, WatchSlotsTick cfg inp st = .ok stI ∧
      stI.slotWatermark = ei.absoluteSlot - 1 ∧ stI.currentEpoch = ei.epoch ∧
      stI.slotWatermark < stI.lastSlot := by
  unfold WatchSlotsTick
  rw [hslot, hei]
  dsimp only
  have htr : trackEpoch cfg inp.env st ei = .ok
      { st with currentEpoch := ei.epoch,
                firstSlot := (GetEpochBounds ei).1,
                lastSlot := (GetEpochBounds ei).2,
                slotWatermark := ei.absoluteSlot - 1,
                epochNumberMetric := ei.epoch } := by
    unfold trackEpoch
    rw [if_pos hinit]
    unfold trackEpochTail
    rw [if_pos hlight]
  rw [if_pos hinit, htr]
  dsimp only
  obtain ⟨g1, g2, g3, g4⟩ := tickGauges_fields cfg ei
    { st with currentEpoch := ei.epoch,
              firstSlot := (GetEpochBounds ei).1,
              lastSlot := (GetEpochBounds ei).2,
              slotWatermark := ei.absoluteSlot - 1,
              epochNumberMetric := ei.epoch }
  rw [if_neg (by rw [g4]; dsimp only; omega)]
  rw [if_neg (by rw [g1]; dsimp only; exact lt_irrefl _)]
  dsimp only
  rw [if_pos hlight]
  refine ⟨_, rfl, ?_, ?_, ?_⟩
  · rw [g4]
  · rw [g1]
  · rw [g4, g3]
    show ei.absoluteSlot - 1 < (GetEpochBounds ei).2
    unfold GetEpochBounds
    dsimp only
    omega

/-- C10: in light mode, a first tick initializes the watermark to the
observed absolute slot minus one, strictly below the epoch's last slot; no
later non-rollover tick ever modifies the watermark (the watermark-advance
call is skipped entirely); and the first tick that observes an epoch
rollover past the watermark reaches the epoch-open assertions with
`slotWatermark != lastSlot` and terminates the process. -/
theorem C10_light_mode_transition_fatal {cfg : ExporterConfig}
    {st st' : WatcherState} {ticks : List TickInputs}
    (hlight : cfg.lightMode = true)
    (hinit : st.currentEpoch ≠ 0)
    (hwm : st.slotWatermark < st.lastSlot)
    (hobs : ∀ inp ∈ ticks, ∀ ei, inp.getEpochInfo = some ei →
      ei.epoch ≤ st.currentEpoch)
    (hrun : runTicks cfg st ticks = .ok st') :
    (st'.slotWatermark = st.slotWatermark ∧ st'.currentEpoch = st.currentEpoch ∧
      st'.lastSlot = st.lastSlot ∧
      ∀ inp cur ei, inp.getSlot = some cur → inp.getEpochInfo = some ei →
        st.currentEpoch < ei.epoch → st.slotWatermark < ei.absoluteSlot →
        WatchSlotsTick cfg inp st' = .fatal) ∧
    (∀ (stU : WatcherState) (inp : TickInputs) (cur : Int) (ei : EpochInfo),
      stU.currentEpoch = 0 → inp.getSlot = some cur → inp.getEpochInfo = some ei →
      ei.slotIndex < ei.slotsInEpoch →
      ∃ stI, WatchSlotsTick cfg inp stU = .ok stI ∧
        stI.slotWatermark = ei.absoluteSlot - 1 ∧ stI.currentEpoch = ei.epoch ∧
        stI.slotWatermark < stI.lastSlot) := by
  refine ⟨?_, ?_⟩
  · induction ticks generalizing st with
    | nil =>
      unfold runTicks at hrun
      cases hrun
      exact ⟨rfl, rfl, rfl, fun inp cur ei hs he hroll hadv =>
        tick_light_rollover_fatal hlight hinit hs he hroll hadv (by omega)⟩
    | cons inp rest ih =>
      unfold runTicks at hrun
      split at hrun
      next => exact Outcome.noConfusion hrun
      next stNext hstep =>
        obtain ⟨e1, e2, e3, e4⟩ := tick_light_no_rollover hlight hinit
          (hobs inp (List.mem_cons_self inp rest)) hstep
        have hinit' : stNext.currentEpoch ≠ 0 := by rw [e1]; exact hinit
        have hwm' : stNext.slotWatermark < stNext.lastSlot := by
          rw [e4, e3]; exact hwm
        have hobs' : ∀ inp' ∈ rest, ∀ ei, inp'.getEpochInfo = some ei →
            ei.epoch ≤ stNext.currentEpoch := by
          intro inp' hmem ei hei
          rw [e1]
          exact hobs inp' (List.mem_cons_of_mem inp hmem) ei hei
        obtain ⟨r1, r2, r3, r4⟩ := ih hinit' hwm' hobs' hrun
        refine ⟨r1.trans e4, r2.trans e1, r3.trans e3, ?_⟩
        intro inp' cur ei hs he hroll hadv
        refine r4 inp' cur ei hs he ?_ ?_
        · rw [e1]; exact hroll
        · rw [e4]; exact hadv
  · intro stU inp cur ei hU hs he hidx
    exact tick_light_init hlight hU hs he hidx

/-- Concrete instantiation of the C10 theorem: a light-mode tick leaves the
watermark at 10, and the following epoch-6 observation is fatal. -/
theorem C10_witness :
    lightRunState.slotWatermark = baseState.slotWatermark ∧
    WatchSlotsTick lightConfig transTick lightRunState = .fatal := by
  have h := @C10_light_mode_transition_fatal lightConfig baseState lightRunState
    [tickObs20] rfl (by decide) (by decide)
    (by
      intro inp hmem ei hei
      rw [List.mem_singleton] at hmem
      subst hmem
      simp only [tickObs20, Option.some.injEq] at hei
      subst hei
      decide)
    (by decide)
  exact ⟨h.1.1, h.1.2.2.2 transTick 100 nextEpochInfo rfl rfl (by decide) (by decide)⟩

/-- Concrete instantiation of the C3 amended theorem: a contiguous epoch-6
open from a fully advanced watermark is not fatal. -/
theorem C3_amended_witness :
    trackEpoch plainConfig baseEnv closeReadyState nextEpochInfo ≠ .fatal := by
  have h := @C3_amended_open_assertions plainConfig baseEnv closeReadyState
    nextEpochInfo (by decide)
  intro hf
  exact (h.1.mp hf) (by decide)

/-- Membership in a slot set after a set-insert. -/
theorem slotInsert_mem (l : List Int) (y x : Int) :
    x ∈ slotInsert l y ↔ x = y ∨ x ∈ l := by
  unfold slotInsert
  split
  next hy =>
    constructor
    · exact Or.inr
    · rintro (rfl | hx)
      · exact hy
      · exact hx
  next hy =>
    rw [List.mem_append, List.mem_singleton]
    tauto

/-- Union membership of the outcome sets after the classification loop:
exactly the old members plus the in-range leader slots. -/
theorem classifyLeaderSlots_mem_union (slots : List Int) (endSlot : Int)
    (prod : HostProduction) (p s : List Int) (x : Int) :
    (x ∈ (classifyLeaderSlots p s slots endSlot (some prod)).1 ∨
     x ∈ (classifyLeaderSlots p s slots endSlot (some prod)).2) ↔
    ((x ∈ p ∨ x ∈ s) ∨ (x ∈ slots ∧ x ≤ endSlot)) := by
  induction slots generalizing p s with
  | nil => simp [classifyLeaderSlots]
  | cons slot rest ih =>
    rw [show classifyLeaderSlots p s (slot :: rest) endSlot (some prod) =
        (if endSlot < slot then classifyLeaderSlots p s rest endSlot (some prod)
         else if 0 < prod.blocksProduced then
           classifyLeaderSlots (slotInsert p slot) s rest endSlot (some prod)
         else classifyLeaderSlots p (slotInsert s slot) rest endSlot (some prod))
      from rfl]
    split
    next hgt =>
      rw [ih]
      simp only [List.mem_cons]
      constructor
      · rintro (hold | ⟨hmem, hle⟩)
        · exact Or.inl hold
        · exact Or.inr ⟨Or.inr hmem, hle⟩
      · rintro (hold | ⟨hmem | hmem, hle⟩)
        · exact Or.inl hold
        · omega
        · exact Or.inr ⟨hmem, hle⟩
    next hle =>
      split
      next hprod =>
        rw [ih]
        simp only [slotInsert_mem, List.mem_cons]
        constructor
        · rintro ((h | h) | ⟨hmem, hl⟩)
          · rcases h with h | h
            · exact Or.inr ⟨Or.inl h, by omega⟩
            · exact Or.inl (Or.inl h)
          · exact Or.inl (Or.inr h)
          · exact Or.inr ⟨Or.inr hmem, hl⟩
        · rintro ((h | h) | ⟨hmem | hmem, hl⟩)
          · exact Or.inl (Or.inl (Or.inr h))
          · exact Or.inl (Or.inr h)
          · exact Or.inl (Or.inl (Or.inl hmem))
          · exact Or.inr ⟨hmem, hl⟩
      next hprod =>
        rw [ih]
        simp only [slotInsert_mem, List.mem_cons]
        constructor
        · rintro ((h | h) | ⟨hmem, hl⟩)
          · exact Or.inl (Or.inl h)
          · rcases h with h | h
            · exact Or.inr ⟨Or.inl h, by omega⟩
            · exact Or.inl (Or.inr h)
          · exact Or.inr ⟨Or.inr hmem, hl⟩
        · rintro ((h | h) | ⟨hmem | hmem, hl⟩)
          · exact Or.inl (Or.inl h)
          · exact Or.inl (Or.inr (Or.inr h))
          · exact Or.inl (Or.inr (Or.inl hmem))
          · exact Or.inr ⟨hmem, hl⟩

/-- C8 amended: provided the validator appears in the block-production
response and the epoch's schedule is cached, a full-range
`processLeaderSlotsForValidator` call with target tip `tip` makes the union
of the outcome sets exactly the validator's leader-schedule slots that are
at most `lastSlot` and at most `tip`, assuming all previously recorded
slots already lie in that range (as holds across a run of advances with
non-decreasing tips); the sets need not be disjoint. -/
theorem C8_amended_union_characterization {cfg : ExporterConfig} {env : RpcEnv}
    {st st' : WatcherState} {tip : Int} {sched : List (String × List Int)}
    {prod : HostProduction} {bp : List (String × HostProduction)}
    (hlight : cfg.lightMode = false)
    (hv : ¬ cfg.validatorIdentity = "")
    (hcache : st.cachedLeaderSchedule = some sched)
    (hepoch : st.cachedLeaderScheduleEpoch = st.currentEpoch)
    (hprod : prodLookup bp cfg.validatorIdentity = some prod)
    (hsub : ∀ x : Int, x ∈ st.processedLeaderSlots ∨ x ∈ st.skippedLeaderSlots →
      x ∈ (schedLookup sched cfg.validatorIdentity).getD [] ∧ x ≤ st.lastSlot ∧ x ≤ tip)
    (h : processLeaderSlotsForValidator cfg env st st.firstSlot st.lastSlot tip bp =
      .ok st') :
    ∀ x : Int, (x ∈ st'.processedLeaderSlots ∨ x ∈ st'.skippedLeaderSlots) ↔
      (x ∈ (schedLookup sched cfg.validatorIdentity).getD [] ∧
        x ≤ st.lastSlot ∧ x ≤ tip) := by
  have hfetch : FetchLeaderSchedule env st st.currentEpoch st.firstSlot =
      some (sched, st) := by
    unfold FetchLeaderSchedule
    rw [hcache]
    dsimp only
    rw [if_pos hepoch]
  unfold processLeaderSlotsForValidator at h
  rw [hlight] at h
  rw [if_neg Bool.false_ne_true] at h
  rw [if_neg (by
    rintro (hlt | hlt)
    · exact absurd hlt (lt_irrefl _)
    · by_cases htip : tip < st.lastSlot
      · rw [if_pos htip] at hlt
        omega
      · rw [if_neg htip] at hlt
        omega)] at h
  rw [if_neg hv, hfetch] at h
  dsimp only at h
  rw [hprod] at h
  cases h
  intro x
  rw [classifyLeaderSlots_mem_union]
  constructor
  · rintro (hold | ⟨hmem, hle⟩)
    · exact hsub x hold
    · refine ⟨hmem, ?_, ?_⟩
      · by_cases htip : tip < st.lastSlot
        · rw [if_pos htip] at hle
          omega
        · rw [if_neg htip] at hle
          omega
      · by_cases htip : tip < st.lastSlot
        · rw [if_pos htip] at hle
          omega
        · rw [if_neg htip] at hle
          omega
  · rintro ⟨hmem, hl, ht⟩
    right
    refine ⟨hmem, ?_⟩
    by_cases htip : tip < st.lastSlot
    · rw [if_pos htip]
      omega
    · rw [if_neg htip]
      omega

/-- Concrete instantiation of the C8 amended theorem: after the closing
advance, the scheduled slot 20 is in the union of the outcome sets. -/
theorem C8_amended_witness :
    (20 : Int) ∈ c8ClosedState.processedLeaderSlots ∨
    (20 : Int) ∈ c8ClosedState.skippedLeaderSlots := by
  have h := @C8_amended_union_characterization vConfig baseEnv overlapState
    c8ClosedState 60 [("V", [20])] ⟨1, 2⟩ [("V", ⟨1, 2⟩)]
    rfl (by decide) rfl rfl (by decide)
    (fun x hx => absurd hx (by simp [overlapState, baseState]))
    (by decide)
  exact (h 20).mpr (by decide)

/-- A lookup misses exactly when no series has the key. -/
theorem counterLookup_eq_none_iff {α : Type} [DecidableEq α]
    (c : MetricVec α) (k : α) :
    counterLookup c k = none ↔ k ∉ c.map Prod.fst := by
  induction c with
  | nil => simp [counterLookup]
  | cons kv rest ih =>
    obtain ⟨k', v'⟩ := kv
    unfold counterLookup
    split
    next heq =>
      subst heq
      simp
    next heq =>
      rw [ih]
      simp only [List.map_cons, List.mem_cons]
      constructor
      · rintro hmem (hk | hk)
        · exact heq hk.symm
        · exact hmem hk
      · intro hcon hk
        exact hcon (Or.inr hk)

/-- Deleting a series only removes entries. -/
theorem counterDelete_keys_subset {α : Type} [DecidableEq α]
    (c : MetricVec α) (k k' : α) :
    k' ∈ (counterDelete c k).map Prod.fst → k' ∈ c.map Prod.fst := by
  induction c with
  | nil => simp [counterDelete]
  | cons kv rest ih =>
    obtain ⟨k₀, v₀⟩ := kv
    unfold counterDelete
    split
    next heq =>
      intro hmem
      exact List.mem_cons_of_mem _ hmem
    next heq =>
      simp only [List.map_cons, List.mem_cons]
      rintro (hk | hk)
      · exact Or.inl hk
      · exact Or.inr (ih hk)

/-- A missing series stays missing under any deletion. -/
theorem counterLookup_delete_none {α : Type} [DecidableEq α]
    {c : MetricVec α} {k : α} (k' : α)
    (h : counterLookup c k = none) :
    counterLookup (counterDelete c k') k = none := by
  rw [counterLookup_eq_none_iff] at h ⊢
  intro hmem
  exact h (counterDelete_keys_subset c k' k hmem)

/-- With duplicate-free keys (the Go map invariant), deleting a series makes
its lookup miss. -/
theorem counterLookup_delete_self {α : Type} [DecidableEq α]
    {c : MetricVec α} (k : α) (hnodup : (c.map Prod.fst).Nodup) :
    counterLookup (counterDelete c k) k = none := by
  induction c with
  | nil => rfl
  | cons kv rest ih =>
    obtain ⟨k₀, v₀⟩ := kv
    simp only [List.map_cons, List.nodup_cons] at hnodup
    unfold counterDelete
    split
    next heq =>
      subst heq
      rw [counterLookup_eq_none_iff]
      exact hnodup.1
    next heq =>
      unfold counterLookup
      rw [if_neg heq]
      exact ih hnodup.2

/-- Deletion preserves duplicate-freeness of the keys. -/
theorem counterDelete_nodup {α : Type} [DecidableEq α]
    {c : MetricVec α} (k : α) (hnodup : (c.map Prod.fst).Nodup) :
    ((counterDelete c k).map Prod.fst).Nodup := by
  induction c with
  | nil => exact hnodup
  | cons kv rest ih =>
    obtain ⟨k₀, v₀⟩ := kv
    simp only [List.map_cons, List.nodup_cons] at hnodup
    unfold counterDelete
    split
    next => exact hnodup.2
    next =>
      simp only [List.map_cons, List.nodup_cons]
      refine ⟨fun hmem => hnodup.1 (counterDelete_keys_subset rest k k₀ hmem), ih hnodup.2⟩

/-- The reward-deletion loop never resurrects a missing series. -/
theorem cleanRewardSeries_preserves_none {epoch : Int} {nks vks : List String}
    {fees infl fees' infl' : MetricVec (String × Int)}
    (h : cleanRewardSeries epoch nks vks fees infl = some (fees', infl')) :
    (∀ k, counterLookup fees k = none → counterLookup fees' k = none) ∧
    (∀ k, counterLookup infl k = none → counterLookup infl' k = none) := by
  induction nks generalizing vks fees infl with
  | nil =>
    unfold cleanRewardSeries at h
    simp only [Option.some.injEq, Prod.mk.injEq] at h
    obtain ⟨h1, h2⟩ := h
    subst h1
    subst h2
    exact ⟨fun k hk => hk, fun k hk => hk⟩
  | cons nk rest ih =>
    cases vks with
    | nil => exact absurd h (by simp [cleanRewardSeries])
    | cons vk vrest =>
      unfold cleanRewardSeries at h
      obtain ⟨pf, pi⟩ := ih h
      exact ⟨fun k hk => pf k (counterLookup_delete_none _ hk),
             fun k hk => pi k (counterLookup_delete_none _ hk)⟩

/-- A successful reward-deletion loop removes the epoch's fee series of
every listed nodekey and the epoch's inflation series of every positionally
corresponding votekey. -/
theorem cleanRewardSeries_deletes {epoch : Int} {nks vks : List String}
    {fees infl fees' infl' : MetricVec (String × Int)}
    (hnF : (fees.map Prod.fst).Nodup) (hnI : (infl.map Prod.fst).Nodup)
    (h : cleanRewardSeries epoch nks vks fees infl = some (fees', infl')) :
    (∀ nk ∈ nks, counterLookup fees' (nk, epoch) = none) ∧
    (∀ i, i < nks.length → counterLookup infl' (vks.getD i "", epoch) = none) := by
  induction nks generalizing vks fees infl with
  | nil =>
    exact ⟨fun nk h' => absurd h' (List.not_mem_nil nk), fun i hi => absurd hi (by simp)⟩
  | cons nk rest ih =>
    cases vks with
    | nil => exact absurd h (by simp [cleanRewardSeries])
    | cons vk vrest =>
      unfold cleanRewardSeries at h
      obtain ⟨pf, pi⟩ := cleanRewardSeries_preserves_none h
      obtain ⟨df, di⟩ := ih (counterDelete_nodup _ hnF) (counterDelete_nodup _ hnI) h
      constructor
      · intro nk' hmem
        rcases List.mem_cons.mp hmem with rfl | hmem'
        · exact pf _ (counterLookup_delete_self _ hnF)
        · exact df nk' hmem'
      · intro i hi
        cases i with
        | zero => exact pi _ (counterLookup_delete_self _ hnI)
        | succ j =>
          have hj := di j (by simpa using hi)
          simpa using hj

/-- C7 amended: a shutdown during the cleanup delay cancels the cleanup
with nothing deleted; otherwise `cleanEpoch` deletes the epoch's fee-reward
series of every configured nodekey, the epoch's inflation-reward series of
every positionally corresponding votekey and the epoch's cluster-status
series — regardless of the epoch's tracked-nodekey set, which it neither
reads nor deletes. -/
theorem C7_amended_cleanup_spec {cfg : ExporterConfig} {st : WatcherState}
    {epoch : Int}
    (hnF : (st.feeRewardsMetric.map Prod.fst).Nodup)
    (hnI : (st.inflationRewardsMetric.map Prod.fst).Nodup)
    (hnC : (st.clusterSlotsByEpochMetric.map Prod.fst).Nodup) :
    (cleanEpoch cfg true st epoch = .ok st) ∧
    (∀ st', cleanEpoch cfg false st epoch = .ok st' →
      st'.trackedNodekeys = st.trackedNodekeys ∧
      (∀ nk ∈ cfg.nodeKeys, counterLookup st'.feeRewardsMetric (nk, epoch) = none) ∧
      (∀ i, i < cfg.nodeKeys.length →
        counterLookup st'.inflationRewardsMetric (cfg.voteKeys.getD i "", epoch) = none) ∧
      counterLookup st'.clusterSlotsByEpochMetric (epoch, "valid") = none ∧
      counterLookup st'.clusterSlotsByEpochMetric (epoch, "skipped") = none) := by
  constructor
  · unfold cleanEpoch
    rw [if_pos rfl]
  · intro st' h
    unfold cleanEpoch at h
    rw [if_neg Bool.false_ne_true] at h
    split at h
    next => exact Outcome.noConfusion h
    next pair hseries =>
      cases h
      obtain ⟨df, di⟩ := cleanRewardSeries_deletes hnF hnI hseries
      refine ⟨rfl, df, di, ?_, ?_⟩
      · exact counterLookup_delete_none _ (counterLookup_delete_self _ hnC)
      · exact counterLookup_delete_self _ (counterDelete_nodup _ hnC)

/-- Concrete instantiation of the C7 amended theorem: shutdown during the
delay deletes nothing. -/
theorem C7_amended_witness :
    cleanEpoch cleanConfig true cleanState 7 = .ok cleanState :=
  (@C7_amended_cleanup_spec cleanConfig cleanState 7 (by decide) (by decide)
    (by decide)).1
